import Mathlib

/-!
Verification development for the beanfolio snapshot export subsystem.

The definitions below are shallow embeddings of the TypeScript source:
pure functions become Lean functions, JavaScript strings are modelled as
Lean `String` (a sequence of Unicode scalar values), JavaScript numbers
are modelled as integers plus explicit non-finite markers (the grids the
application exports carry integral finite numbers; no claim below depends
on decimal float rendering), byte buffers become `List Nat` with every
32/16-bit store taken modulo the field width, and the ambient clock
(`new Date()`) becomes an explicit parameter.
-/

namespace BeanGrid


/-- JavaScript number: a finite (integral) value or one of the non-finite
values distinguished by `Number.isFinite`. -/
inductive JSNumber where
  | finite (n : Int)
  | nan
  | inf
  | negInf
deriving DecidableEq, Repr

/-- Model of `Number.isFinite(value)`. -/
def isFiniteNum : JSNumber → Bool
  | .finite _ => true
  | _ => false

/-- Model of `String(value)` for a number. -/
def jsNumberToString : JSNumber → String
  | .finite n => toString n
  | .nan => "NaN"
  | .inf => "Infinity"
  | .negInf => "-Infinity"

/-- Model of `GridCellValue = string | number | boolean | null` from `types.ts`. -/
inductive GridCellValue where
  | str (s : String)
  | num (n : JSNumber)
  | boolean (b : Bool)
  | null
deriving DecidableEq, Repr

/-- Model of `CellSnapshot` from `types.ts`: resolved display value plus the
optional raw formula text (`formula?: string`). -/
structure CellSnapshot where
  displayValue : GridCellValue
  formula : Option String
deriving DecidableEq, Repr

/-- JavaScript truthiness of an optional string: `undefined` and the
empty string are falsy, every other string is truthy. -/
def optStrTruthy : Option String → Bool
  | none => false
  | some s => !s.isEmpty

/-- The character class trimmed by `String.prototype.trim` and matched by
the regular-expression class `\s` (ECMAScript WhiteSpace ∪ LineTerminator). -/
def jsIsWhiteSpaceChar (c : Char) : Bool :=
  c.toNat = 0x9 || c.toNat = 0xA || c.toNat = 0xB || c.toNat = 0xC || c.toNat = 0xD
    || c.toNat = 0x20 || c.toNat = 0xA0 || c.toNat = 0x1680
    || (0x2000 <= c.toNat && c.toNat <= 0x200A)
    || c.toNat = 0x2028 || c.toNat = 0x2029 || c.toNat = 0x202F
    || c.toNat = 0x205F || c.toNat = 0x3000 || c.toNat = 0xFEFF

/-- Model of `String.prototype.trim`. -/
def jsTrim (s : String) : String :=
  ⟨((s.data.dropWhile jsIsWhiteSpaceChar).reverse.dropWhile jsIsWhiteSpaceChar).reverse⟩

/-- Model of `userEnteredValue` payload variants used by the Google Sheets
`appendCells` request (`googleLedger.ts`). -/
inductive UserEnteredValue where
  | numberValue (n : Int)
  | boolValue (b : Bool)
  | stringValue (s : String)
deriving DecidableEq, Repr

/-- One per-column cell-data object of an `appendCells` row: the record
`{ userEnteredValue?, note? }`; the empty object has both fields absent. -/
structure GoogleCellData where
  userEnteredValue : Option UserEnteredValue
  note : Option String
deriving DecidableEq, Repr

/-- The empty object `{}` pushed for blank columns. -/
def emptyCellData : GoogleCellData := { userEnteredValue := none, note := none }

/-- One row `{ values: [...] }` of the append payload. -/
structure RowData where
  values : List GoogleCellData
deriving DecidableEq, Repr

/-- Model of `BLANK_GAP_ROWS` from `googleLedger.ts`. -/
def BLANK_GAP_ROWS : Nat := 4

/-- Model of `toUserEnteredValue` from `googleLedger.ts`. -/
def toUserEnteredValue : GridCellValue → Option UserEnteredValue
  | .null => none
  | .num n =>
    match n with
    | .finite v => some (.numberValue v)
    | _ => none
  | .boolean b => some (.boolValue b)
  | .str s => if (jsTrim s).isEmpty then none else some (.stringValue s)

/-- Model of `toGoogleCellData` from `googleLedger.ts`. -/
def toGoogleCellData (cell : CellSnapshot) : GoogleCellData :=
  { userEnteredValue := toUserEnteredValue cell.displayValue,
    note := if optStrTruthy cell.formula then some ("Formula: " ++ cell.formula.getD "") else none }

/-- Model of `buildBlankRow` from `googleLedger.ts`. -/
def buildBlankRow (columnCount : Int) : RowData :=
  { values := List.replicate columnCount.toNat emptyCellData }

/-- Model of `buildAppendRows` from `googleLedger.ts`: the imperative pushes are
translated, in order, into list concatenation. -/
def buildAppendRows (label : String) (cells : List (List CellSnapshot)) (columnCount : Int) :
    List RowData :=
  let safeColumnCount : Int := max 1 columnCount
  let gapRows := List.replicate BLANK_GAP_ROWS (buildBlankRow safeColumnCount)
  let trimmedLabel := jsTrim label
  let labelRows :=
    if trimmedLabel.length > 0 then
      [{ values := (buildBlankRow safeColumnCount).values.set 0
          { userEnteredValue := some (.stringValue trimmedLabel), note := none } }]
    else []
  gapRows ++ labelRows ++ cells.map (fun row => { values := row.map toGoogleCellData })

/-- Model of `appendLedgerBlock` from `googleLedger.ts`, reduced to its data flow:
`request.label ?? ''` feeds `buildAppendRows`; the function returns `none`
exactly on the `rows.length === 0` early-return path (no network call) and
otherwise `some rows`, the `appendCells.rows` field of the `batchUpdate`
request body it sends. -/
def appendLedgerBlockRequest (label : Option String) (cells : List (List CellSnapshot))
    (columnCount : Int) : Option (List RowData) :=
  let rows := buildAppendRows (label.getD "") cells columnCount
  if rows.length = 0 then none else some rows


/-- Model of `value.replaceAll(c, rep)` for a single-character search string: each
occurrence of `c` becomes `rep`, every other character is kept. -/
def replaceAllChar (c : Char) (rep : String) (s : String) : String :=
  ⟨(s.data.map (fun x => if x = c then rep.data else [x])).flatten⟩

/-- Model of `escapeXml` from the source: sequential `replaceAll` of `&`, `<`, `>`,
`"`, `'` (in that order). -/
def escapeXml (value : String) : String :=
  replaceAllChar '\'' "&#39;" (replaceAllChar '"' "&quot;" (replaceAllChar '>' "&gt;"
    (replaceAllChar '<' "&lt;" (replaceAllChar '&' "&amp;" value))))

/-- Test whether `hay` begins with `needle` (first argument is the needle). -/
def startsWithList : List Char → List Char → Bool
  | [], _ => true
  | _ :: _, [] => false
  | n :: ns, h :: hs => n = h && startsWithList ns hs

/-- Substring occurrence at any position. -/
def includesList (needle : List Char) : List Char → Bool
  | [] => startsWithList needle []
  | h :: t => startsWithList needle (h :: t) || includesList needle t

/-- Model of `hay.includes(needle)` of JavaScript. -/
def strIncludes (hay needle : String) : Bool := includesList needle.data hay.data

/-- Model of `resolveSnapshotValue` from the source: `if (cell.formula) return
cell.formula; return cell.displayValue` — a truthy (non-empty) formula wins. -/
def resolveSnapshotValue (cell : CellSnapshot) : GridCellValue :=
  match cell.formula with
  | some f => if f.isEmpty then cell.displayValue else .str f
  | none => cell.displayValue

/-- Model of `encodeDelimitedCell` from the source. -/
def encodeDelimitedCell (value : GridCellValue) (delimiter : String) : String :=
  match value with
  | .null => ""
  | .num n => jsNumberToString n
  | .boolean b => if b then "true" else "false"
  | .str s =>
    let needsQuoting := strIncludes s "\"" || strIncludes s "\n" || strIncludes s "\r"
      || strIncludes s delimiter || (jsTrim s != s)
    if needsQuoting then "\"" ++ replaceAllChar '"' "\"\"" s ++ "\"" else s

/-- Model of `serializeDelimited` from the source: per row, encode each resolved cell and
`join(delimiter)`; rows are `join('\r\n')`-ed. -/
def serializeDelimited (cells : List (List CellSnapshot)) (delimiter : String) : String :=
  String.intercalate "\r\n" (cells.map (fun row =>
    String.intercalate delimiter (row.map (fun cell =>
      encodeDelimitedCell (resolveSnapshotValue cell) delimiter))))

/-- Characters replaced by `-` in `sanitizeFileName` (`/[\\/:*?"<>|]/g`). -/
def isFileNameBadChar (c : Char) : Bool :=
  ['\\', '/', ':', '*', '?', '"', '<', '>', '|'].contains c

/-- Model of the regex step `replace(/\s+/g, ' ')`: each maximal whitespace run becomes one space. -/
def collapseWsAux : Bool → List Char → List Char
  | _, [] => []
  | prevWs, c :: rest =>
    if jsIsWhiteSpaceChar c then
      (if prevWs then [] else [' ']) ++ collapseWsAux true rest
    else c :: collapseWsAux false rest

/-- Model of `sanitizeFileName` from the source: trim, replace reserved characters with
`-`, collapse whitespace runs, strip trailing dots/whitespace, take 80. -/
def sanitizeFileName (input : String) : String :=
  ⟨((collapseWsAux false ((jsTrim input).data.map
      (fun c => if isFileNameBadChar c then '-' else c))).reverse.dropWhile
      (fun c => c = '.' || jsIsWhiteSpaceChar c)).reverse.take 80⟩

/-- Model of `shouldPreserveXmlSpace` from the source: leading/trailing whitespace or
`/[\n\r\t]| {2,}/` matches. -/
def shouldPreserveXmlSpace (value : String) : Bool :=
  (jsTrim value != value) || strIncludes value "\n" || strIncludes value "\r"
    || strIncludes value "\t" || strIncludes value "  "

/-- The `while (n > 0)` loop of `columnToLetters`. -/
def columnLettersLoop (n : Nat) (letters : String) : String :=
  if n = 0 then letters
  else columnLettersLoop ((n - 1) / 26)
    (String.singleton (Char.ofNat (65 + (n - 1) % 26)) ++ letters)
termination_by n
decreasing_by omega

/-- Model of `columnToLetters` from the source. -/
def columnToLetters (index : Nat) : String := columnLettersLoop (index + 1) ""

/-- Model of `formula.trim().replace(/^=/, '')`'s replace step: drop one leading `=`. -/
def stripLeadingEq (s : String) : String :=
  match s.data with
  | '=' :: rest => ⟨rest⟩
  | _ => s

/-- The non-formula branch of `buildXlsxCellXml`. -/
def buildXlsxValueCellXml (value : GridCellValue) (cellRef : String) : String :=
  match value with
  | .null => ""
  | .num n =>
    if !isFiniteNum n then ""
    else "<c r=\"" ++ cellRef ++ "\"><v>" ++ jsNumberToString n ++ "</v></c>"
  | .boolean b =>
    "<c r=\"" ++ cellRef ++ "\" t=\"b\"><v>" ++ (if b then "1" else "0") ++ "</v></c>"
  | .str s =>
    let spaceAttr := if shouldPreserveXmlSpace s then " xml:space=\"preserve\"" else ""
    "<c r=\"" ++ cellRef ++ "\" t=\"inlineStr\"><is><t" ++ spaceAttr ++ ">"
      ++ escapeXml s ++ "</t></is></c>"

/-- Model of `buildXlsxCellXml` from the source. -/
def buildXlsxCellXml (cell : CellSnapshot) (rowIndex columnIndex : Nat) : String :=
  let cellRef := columnToLetters columnIndex ++ toString (rowIndex + 1)
  if optStrTruthy cell.formula then
    let formula := stripLeadingEq (jsTrim (cell.formula.getD ""))
    if formula.isEmpty then ""
    else "<c r=\"" ++ cellRef ++ "\"><f>" ++ escapeXml formula ++ "</f></c>"
  else
    buildXlsxValueCellXml cell.displayValue cellRef

/-- Model of `buildXlsxRowXml` from the source: note the blank-row branch emits a
self-closed `<row r="n"/>` rather than omitting the row. -/
def buildXlsxRowXml (row : List CellSnapshot) (rowIndex : Nat) : String :=
  let cellsXml := String.join ((row.mapIdx (fun columnIndex cell =>
    buildXlsxCellXml cell rowIndex columnIndex)).filter (fun item => item.length > 0))
  if cellsXml.length = 0 then
    "<row r=\"" ++ toString (rowIndex + 1) ++ "\"/>"
  else
    "<row r=\"" ++ toString (rowIndex + 1) ++ "\">" ++ cellsXml ++ "</row>"

/-- Model of `buildXlsxSheetXml` from the source. -/
def buildXlsxSheetXml (cells : List (List CellSnapshot)) : String :=
  let rows := String.join (cells.mapIdx (fun rowIndex row => buildXlsxRowXml row rowIndex))
  "<?xml version=\"1.0\" encoding=\"UTF-8\" standalone=\"yes\"?>"
    ++ "<worksheet xmlns=\"http://schemas.openxmlformats.org/spreadsheetml/2006/main\">"
    ++ ("<sheetData>" ++ rows ++ "</sheetData>")
    ++ "</worksheet>"

/-- Model of `buildOdsCellXml` from the source: it resolves through
`resolveSnapshotValue`, so a truthy formula is emitted as the cell value. -/
def buildOdsCellXml (cell : CellSnapshot) : String :=
  match resolveSnapshotValue cell with
  | .null => "<table:table-cell/>"
  | .num n =>
    if !isFiniteNum n then "<table:table-cell/>"
    else "<table:table-cell office:value-type=\"float\" office:value=\"" ++ jsNumberToString n
      ++ "\"><text:p>" ++ escapeXml (jsNumberToString n) ++ "</text:p></table:table-cell>"
  | .boolean b =>
    "<table:table-cell office:value-type=\"boolean\" office:boolean-value=\""
      ++ (if b then "true" else "false") ++ "\"><text:p>" ++ (if b then "TRUE" else "FALSE")
      ++ "</text:p></table:table-cell>"
  | .str s =>
    "<table:table-cell office:value-type=\"string\"><text:p>" ++ escapeXml s
      ++ "</text:p></table:table-cell>"

/-- Model of `buildOdsRowXml` from the source. -/
def buildOdsRowXml (row : List CellSnapshot) : String :=
  "<table:table-row>" ++ String.join (row.map buildOdsCellXml) ++ "</table:table-row>"

/-- Model of `trimTrailingEmptyRows`'s per-row content test:
`cell.displayValue !== null || Boolean(cell.formula)` over `.some`. -/
def rowHasContent (row : List CellSnapshot) : Bool :=
  row.any (fun cell => (cell.displayValue != GridCellValue.null) || optStrTruthy cell.formula)

/-- The downward `for (rowIndex = cells.length - 1; ...)` loop of
`trimTrailingEmptyRows`: at index `i - 1`, return `cells.slice(0, i)` when the
row has content, else keep scanning; `0` is the loop running off the front. -/
def trimFrom (cells : List (List CellSnapshot)) : Nat → List (List CellSnapshot)
  | 0 => []
  | i + 1 => if rowHasContent (cells.getD i []) then cells.take (i + 1) else trimFrom cells i

/-- Model of `trimTrailingEmptyRows` from the source. -/
def trimTrailingEmptyRows (cells : List (List CellSnapshot)) : List (List CellSnapshot) :=
  trimFrom cells cells.length


/-- One UTF-8 code unit sequence for a scalar value (what `TextEncoder`
produces per character). -/
def encodeUtf8Char (n : Nat) : List Nat :=
  if n < 0x80 then [n]
  else if n < 0x800 then [0xc0 ||| (n >>> 6), 0x80 ||| (n &&& 0x3f)]
  else if n < 0x10000 then
    [0xe0 ||| (n >>> 12), 0x80 ||| ((n >>> 6) &&& 0x3f), 0x80 ||| (n &&& 0x3f)]
  else
    [0xf0 ||| (n >>> 18), 0x80 ||| ((n >>> 12) &&& 0x3f), 0x80 ||| ((n >>> 6) &&& 0x3f),
      0x80 ||| (n &&& 0x3f)]

/-- Model of `encodeUtf8` from the source (`TextEncoder.encode`). -/
def encodeUtf8 (s : String) : List Nat :=
  (s.data.map (fun c => encodeUtf8Char c.toNat)).flatten

/-- One round of the CRC-32 table generator:
`value = (value & 1) === 1 ? 0xedb88320 ^ (value >>> 1) : value >>> 1`. -/
def crc32TableStep (value : Nat) : Nat :=
  if (value &&& 1) = 1 then 0xedb88320 ^^^ (value >>> 1) else value >>> 1

/-- The inner `for (bit = 0; bit < 8; ...)` loop. -/
def applyCrcStepN : Nat → Nat → Nat
  | 0, v => v
  | m + 1, v => applyCrcStepN m (crc32TableStep v)

/-- Model of `buildCrc32Table` from the source. -/
def buildCrc32Table : List Nat := (List.range 256).map (fun index => applyCrcStepN 8 index)

/-- The memoized table of `getCrc32Table` (memoization is invisible to a pure
model). -/
def crc32Table : List Nat := buildCrc32Table

/-- One step of the `crc32` loop body. -/
def crc32Update (checksum byte : Nat) : Nat :=
  let tableIndex := (checksum ^^^ byte) &&& 0xff
  (checksum >>> 8) ^^^ crc32Table.getD tableIndex 0

/-- Model of `crc32` from the source: register seeded `0xFFFFFFFF`, table-driven
update per byte, complemented once at the end. -/
def crc32 (data : List Nat) : Nat :=
  (data.foldl crc32Update 0xffffffff) ^^^ 0xffffffff

/-- The components of a JavaScript `Date` the ZIP writer reads
(`getFullYear/getMonth/getDate/getHours/getMinutes/getSeconds`; month is
0-based). -/
structure JSDate where
  fullYear : Nat
  month : Nat
  day : Nat
  hours : Nat
  minutes : Nat
  seconds : Nat
deriving DecidableEq, Repr

/-- Model of `toDosTime` from the source. -/
def toDosTime (date : JSDate) : Nat :=
  let seconds := date.seconds / 2
  ((date.hours &&& 0x1f) <<< 11) ||| ((date.minutes &&& 0x3f) <<< 5) ||| (seconds &&& 0x1f)

/-- Model of `toDosDate` from the source. -/
def toDosDate (date : JSDate) : Nat :=
  let year := max date.fullYear 1980
  (((year - 1980) &&& 0x7f) <<< 9) ||| (((date.month + 1) &&& 0x0f) <<< 5) ||| (date.day &&& 0x1f)

/-- Bytes written by `DataView.setUint16` (little-endian): two bytes. -/
def u16le (value : Nat) : List Nat := [value % 256, value / 256 % 256]

/-- Bytes written by `DataView.setUint32` (little-endian): four bytes. -/
def u32le (value : Nat) : List Nat :=
  [value % 256, value / 256 % 256, value / 65536 % 256, value / 16777216 % 256]

/-- Little-endian decode of the first two bytes of a byte list. -/
def readU16LE (l : List Nat) : Nat := l.getD 0 0 + 256 * l.getD 1 0

/-- Little-endian decode of the first four bytes of a byte list. -/
def readU32LE (l : List Nat) : Nat :=
  l.getD 0 0 + 256 * l.getD 1 0 + 65536 * l.getD 2 0 + 16777216 * l.getD 3 0

/-- Model of `buildZipLocalFileHeader` from the source: the 30 header bytes, fields at
their `DataView` offsets (signature, version 20, flags 0, method 0, time,
date, CRC, compressed size = uncompressed size, name length, extra length 0). -/
def buildZipLocalFileHeader (fileNameLength crc size dosTime dosDate : Nat) : List Nat :=
  u32le 0x04034b50 ++ u16le 20 ++ u16le 0 ++ u16le 0 ++ u16le dosTime ++ u16le dosDate
    ++ u32le crc ++ u32le size ++ u32le size ++ u16le fileNameLength ++ u16le 0

/-- Model of `buildZipCentralDirectoryHeader` from the source: the 46 header bytes. -/
def buildZipCentralDirectoryHeader (fileNameLength crc size dosTime dosDate localOffset : Nat) :
    List Nat :=
  u32le 0x02014b50 ++ u16le 20 ++ u16le 20 ++ u16le 0 ++ u16le 0 ++ u16le dosTime
    ++ u16le dosDate ++ u32le crc ++ u32le size ++ u32le size ++ u16le fileNameLength
    ++ u16le 0 ++ u16le 0 ++ u16le 0 ++ u16le 0 ++ u32le 0 ++ u32le localOffset

/-- Model of `buildZipEndOfCentralDirectoryRecord` from the source: the 22 record
bytes (signature, disk numbers 0, entry count twice, central-directory size,
central-directory offset, comment length 0). -/
def buildZipEndOfCentralDirectoryRecord (entryCount centralDirectorySize centralDirectoryOffset :
    Nat) : List Nat :=
  u32le 0x06054b50 ++ u16le 0 ++ u16le 0 ++ u16le entryCount ++ u16le entryCount
    ++ u32le centralDirectorySize ++ u32le centralDirectoryOffset ++ u16le 0

/-- Model of `ZipEntry` from the source. -/
structure ZipEntry where
  name : String
  data : List Nat
deriving DecidableEq, Repr

/-- The per-entry record pushed onto `centralDirectoryEntries`. -/
structure CentralDirEntry where
  nameBytes : List Nat
  crcValue : Nat
  size : Nat
  localOffset : Nat
deriving DecidableEq, Repr

/-- The body of the first `entries.forEach` of `createZipArchive`:
accumulates local chunks, central-directory entries and the running offset. -/
def zipFirstStep (dosTime dosDate : Nat)
    (acc : List (List Nat) × List CentralDirEntry × Nat) (entry : ZipEntry) :
    List (List Nat) × List CentralDirEntry × Nat :=
  let nameBytes := encodeUtf8 entry.name
  let size := entry.data.length
  let crc := crc32 entry.data
  let localHeader := buildZipLocalFileHeader nameBytes.length crc size dosTime dosDate
  (acc.1 ++ [localHeader, nameBytes, entry.data],
   acc.2.1 ++ [{ nameBytes := nameBytes, crcValue := crc, size := size, localOffset := acc.2.2 }],
   acc.2.2 + localHeader.length + nameBytes.length + size)

/-- The body of the second `forEach` of `createZipArchive`: accumulates
central chunks and the central-directory size. -/
def zipSecondStep (dosTime dosDate : Nat) (acc : List (List Nat) × Nat)
    (entry : CentralDirEntry) : List (List Nat) × Nat :=
  let centralHeader := buildZipCentralDirectoryHeader entry.nameBytes.length entry.crcValue
    entry.size dosTime dosDate entry.localOffset
  (acc.1 ++ [centralHeader, entry.nameBytes], acc.2 + centralHeader.length + entry.nameBytes.length)

/-- Model of `createZipArchive` from the source; `new Date()` becomes the explicit
`now` parameter, and `concatUint8Arrays` is `List.flatten`. -/
def createZipArchive (entries : List ZipEntry) (now : JSDate) : List Nat :=
  let dosTime := toDosTime now
  let dosDate := toDosDate now
  let fp := entries.foldl (zipFirstStep dosTime dosDate) ([], [], 0)
  let sp := fp.2.1.foldl (zipSecondStep dosTime dosDate) ([], 0)
  let eocd := buildZipEndOfCentralDirectoryRecord entries.length sp.2 fp.2.2
  (fp.1 ++ sp.1 ++ [eocd]).flatten

/-- Declarative form of one entry's local-file section bytes: header,
filename bytes, raw data. -/
def zipLocalPart (dosTime dosDate : Nat) (e : ZipEntry) : List Nat :=
  buildZipLocalFileHeader (encodeUtf8 e.name).length (crc32 e.data) e.data.length dosTime dosDate
    ++ encodeUtf8 e.name ++ e.data

/-- Declarative form of the whole local-file section. -/
def zipLocalSection (entries : List ZipEntry) (dosTime dosDate : Nat) : List Nat :=
  (entries.map (zipLocalPart dosTime dosDate)).flatten

/-- Byte length of the local-file section (independent of the timestamp). -/
def zipLocalLen (entries : List ZipEntry) : Nat :=
  (entries.map (fun e => 30 + (encodeUtf8 e.name).length + e.data.length)).sum

/-- The central-directory entries with their running local offsets, starting
from `off`. -/
def zipCdEntriesFrom (off : Nat) : List ZipEntry → List CentralDirEntry
  | [] => []
  | e :: rest =>
    { nameBytes := encodeUtf8 e.name, crcValue := crc32 e.data, size := e.data.length,
      localOffset := off }
      :: zipCdEntriesFrom (off + 30 + (encodeUtf8 e.name).length + e.data.length) rest

/-- Declarative form of one entry's central-directory bytes. -/
def zipCentralPart (dosTime dosDate : Nat) (c : CentralDirEntry) : List Nat :=
  buildZipCentralDirectoryHeader c.nameBytes.length c.crcValue c.size dosTime dosDate c.localOffset
    ++ c.nameBytes

/-- Declarative form of the whole central-directory section. -/
def zipCentralSection (entries : List ZipEntry) (dosTime dosDate : Nat) : List Nat :=
  ((zipCdEntriesFrom 0 entries).map (zipCentralPart dosTime dosDate)).flatten

/-- Byte length of the central-directory section. -/
def zipCentralLen (entries : List ZipEntry) : Nat :=
  (entries.map (fun e => 46 + (encodeUtf8 e.name).length)).sum

/-- Model of `buildXlsxContentTypesXml` from the source. -/
def buildXlsxContentTypesXml : String :=
  "<?xml version=\"1.0\" encoding=\"UTF-8\" standalone=\"yes\"?>"
    ++ "<Types xmlns=\"http://schemas.openxmlformats.org/package/2006/content-types\">"
    ++ "<Default Extension=\"rels\" ContentType=\"application/vnd.openxmlformats-package.relationships+xml\"/>"
    ++ "<Default Extension=\"xml\" ContentType=\"application/xml\"/>"
    ++ "<Override PartName=\"/xl/workbook.xml\" ContentType=\"application/vnd.openxmlformats-officedocument.spreadsheetml.sheet.main+xml\"/>"
    ++ "<Override PartName=\"/xl/worksheets/sheet1.xml\" ContentType=\"application/vnd.openxmlformats-officedocument.spreadsheetml.worksheet+xml\"/>"
    ++ "<Override PartName=\"/xl/styles.xml\" ContentType=\"application/vnd.openxmlformats-officedocument.spreadsheetml.styles+xml\"/>"
    ++ "</Types>"

/-- Model of `buildXlsxRootRelationshipsXml` from the source. -/
def buildXlsxRootRelationshipsXml : String :=
  "<?xml version=\"1.0\" encoding=\"UTF-8\" standalone=\"yes\"?>"
    ++ "<Relationships xmlns=\"http://schemas.openxmlformats.org/package/2006/relationships\">"
    ++ "<Relationship Id=\"rId1\" Type=\"http://schemas.openxmlformats.org/officeDocument/2006/relationships/officeDocument\" Target=\"xl/workbook.xml\"/>"
    ++ "</Relationships>"

/-- Model of `buildXlsxWorkbookXml` from the source. -/
def buildXlsxWorkbookXml : String :=
  "<?xml version=\"1.0\" encoding=\"UTF-8\" standalone=\"yes\"?>"
    ++ "<workbook xmlns=\"http://schemas.openxmlformats.org/spreadsheetml/2006/main\" xmlns:r=\"http://schemas.openxmlformats.org/officeDocument/2006/relationships\">"
    ++ "<sheets><sheet name=\"Sheet1\" sheetId=\"1\" r:id=\"rId1\"/></sheets>"
    ++ "</workbook>"

/-- Model of `buildXlsxWorkbookRelationshipsXml` from the source. -/
def buildXlsxWorkbookRelationshipsXml : String :=
  "<?xml version=\"1.0\" encoding=\"UTF-8\" standalone=\"yes\"?>"
    ++ "<Relationships xmlns=\"http://schemas.openxmlformats.org/package/2006/relationships\">"
    ++ "<Relationship Id=\"rId1\" Type=\"http://schemas.openxmlformats.org/officeDocument/2006/relationships/worksheet\" Target=\"worksheets/sheet1.xml\"/>"
    ++ "<Relationship Id=\"rId2\" Type=\"http://schemas.openxmlformats.org/officeDocument/2006/relationships/styles\" Target=\"styles.xml\"/>"
    ++ "</Relationships>"

/-- Model of `buildXlsxStylesXml` from the source. -/
def buildXlsxStylesXml : String :=
  "<?xml version=\"1.0\" encoding=\"UTF-8\" standalone=\"yes\"?>"
    ++ "<styleSheet xmlns=\"http://schemas.openxmlformats.org/spreadsheetml/2006/main\">"
    ++ "<fonts count=\"1\"><font><sz val=\"11\"/><name val=\"Calibri\"/><family val=\"2\"/></font></fonts>"
    ++ "<fills count=\"2\"><fill><patternFill patternType=\"none\"/></fill><fill><patternFill patternType=\"gray125\"/></fill></fills>"
    ++ "<borders count=\"1\"><border><left/><right/><top/><bottom/><diagonal/></border></borders>"
    ++ "<cellStyleXfs count=\"1\"><xf numFmtId=\"0\" fontId=\"0\" fillId=\"0\" borderId=\"0\"/></cellStyleXfs>"
    ++ "<cellXfs count=\"1\"><xf numFmtId=\"0\" fontId=\"0\" fillId=\"0\" borderId=\"0\" xfId=\"0\"/></cellXfs>"
    ++ "<cellStyles count=\"1\"><cellStyle name=\"Normal\" xfId=\"0\" builtinId=\"0\"/></cellStyles>"
    ++ "</styleSheet>"

/-- Model of `buildXlsxWorkbookArchive` from the source. -/
def buildXlsxWorkbookArchive (cells : List (List CellSnapshot)) (now : JSDate) : List Nat :=
  createZipArchive [
    { name := "[Content_Types].xml", data := encodeUtf8 buildXlsxContentTypesXml },
    { name := "_rels/.rels", data := encodeUtf8 buildXlsxRootRelationshipsXml },
    { name := "xl/workbook.xml", data := encodeUtf8 buildXlsxWorkbookXml },
    { name := "xl/_rels/workbook.xml.rels", data := encodeUtf8 buildXlsxWorkbookRelationshipsXml },
    { name := "xl/styles.xml", data := encodeUtf8 buildXlsxStylesXml },
    { name := "xl/worksheets/sheet1.xml", data := encodeUtf8 (buildXlsxSheetXml cells) }] now

/-- Model of `buildOdsContentXml` from the source. -/
def buildOdsContentXml (cells : List (List CellSnapshot)) : String :=
  let rows := String.join (cells.map buildOdsRowXml)
  "<?xml version=\"1.0\" encoding=\"UTF-8\"?>"
    ++ "<office:document-content"
    ++ " xmlns:office=\"urn:oasis:names:tc:opendocument:xmlns:office:1.0\""
    ++ " xmlns:table=\"urn:oasis:names:tc:opendocument:xmlns:table:1.0\""
    ++ " xmlns:text=\"urn:oasis:names:tc:opendocument:xmlns:text:1.0\""
    ++ " office:version=\"1.2\">"
    ++ "<office:body><office:spreadsheet><table:table table:name=\"Sheet1\">"
    ++ rows
    ++ "</table:table></office:spreadsheet></office:body>"
    ++ "</office:document-content>"

/-- Model of `buildOdsStylesXml` from the source. -/
def buildOdsStylesXml : String :=
  "<?xml version=\"1.0\" encoding=\"UTF-8\"?>"
    ++ "<office:document-styles xmlns:office=\"urn:oasis:names:tc:opendocument:xmlns:office:1.0\" office:version=\"1.2\">"
    ++ "<office:styles/>"
    ++ "</office:document-styles>"

/-- Model of `buildOdsMetaXml` from the source. -/
def buildOdsMetaXml : String :=
  "<?xml version=\"1.0\" encoding=\"UTF-8\"?>"
    ++ "<office:document-meta xmlns:office=\"urn:oasis:names:tc:opendocument:xmlns:office:1.0\" office:version=\"1.2\">"
    ++ "<office:meta/>"
    ++ "</office:document-meta>"

/-- Model of `buildOdsSettingsXml` from the source. -/
def buildOdsSettingsXml : String :=
  "<?xml version=\"1.0\" encoding=\"UTF-8\"?>"
    ++ "<office:document-settings xmlns:office=\"urn:oasis:names:tc:opendocument:xmlns:office:1.0\" office:version=\"1.2\">"
    ++ "<office:settings/>"
    ++ "</office:document-settings>"

/-- Model of `buildOdsManifestXml` from the source. -/
def buildOdsManifestXml : String :=
  "<?xml version=\"1.0\" encoding=\"UTF-8\"?>"
    ++ "<manifest:manifest xmlns:manifest=\"urn:oasis:names:tc:opendocument:xmlns:manifest:1.0\" manifest:version=\"1.2\">"
    ++ "<manifest:file-entry manifest:media-type=\"application/vnd.oasis.opendocument.spreadsheet\" manifest:full-path=\"/\"/>"
    ++ "<manifest:file-entry manifest:media-type=\"text/xml\" manifest:full-path=\"content.xml\"/>"
    ++ "<manifest:file-entry manifest:media-type=\"text/xml\" manifest:full-path=\"styles.xml\"/>"
    ++ "<manifest:file-entry manifest:media-type=\"text/xml\" manifest:full-path=\"meta.xml\"/>"
    ++ "<manifest:file-entry manifest:media-type=\"text/xml\" manifest:full-path=\"settings.xml\"/>"
    ++ "</manifest:manifest>"

/-- Model of `buildOdsWorkbookArchive` from the source. -/
def buildOdsWorkbookArchive (cells : List (List CellSnapshot)) (now : JSDate) : List Nat :=
  createZipArchive [
    { name := "mimetype", data := encodeUtf8 "application/vnd.oasis.opendocument.spreadsheet" },
    { name := "content.xml", data := encodeUtf8 (buildOdsContentXml cells) },
    { name := "styles.xml", data := encodeUtf8 buildOdsStylesXml },
    { name := "meta.xml", data := encodeUtf8 buildOdsMetaXml },
    { name := "settings.xml", data := encodeUtf8 buildOdsSettingsXml },
    { name := "META-INF/manifest.xml", data := encodeUtf8 buildOdsManifestXml }] now

/-- Model of `ExportFormat` from the source. -/
inductive ExportFormat where
  | csv
  | tsv
  | xlsx
  | ods
deriving DecidableEq, Repr

/-- One element of `ExportFile.payload` (`string | ArrayBuffer`). -/
inductive PayloadPart where
  | strPart (s : String)
  | bytesPart (b : List Nat)
deriving DecidableEq, Repr

/-- Model of `ExportFile` from the source. -/
structure ExportFile where
  fileName : String
  mimeType : String
  payload : List PayloadPart
deriving DecidableEq, Repr

/-- Model of `buildExportFile` from the source; the two reads of the ambient clock
become parameters: `nowIso` is `new Date().toISOString()` (used only for the
fallback base name) and `now` is the `new Date()` read inside
`createZipArchive`. -/
def buildExportFile (cells : List (List CellSnapshot)) (format : ExportFormat) (label : String)
    (nowIso : String) (now : JSDate) : ExportFile :=
  let preparedLabel := sanitizeFileName label
  let baseName := if preparedLabel.length > 0 then preparedLabel
    else "beanfolio-" ++ ⟨(replaceAllChar ':' "-" nowIso).data.take 19⟩
  match format with
  | .csv =>
    { fileName := baseName ++ ".csv"
      mimeType := "text/csv;charset=utf-8"
      payload := [.strPart ("\uFEFF" ++ serializeDelimited cells ",")] }
  | .tsv =>
    { fileName := baseName ++ ".tsv"
      mimeType := "text/tab-separated-values;charset=utf-8"
      payload := [.strPart ("\uFEFF" ++ serializeDelimited cells "\t")] }
  | .xlsx =>
    { fileName := baseName ++ ".xlsx"
      mimeType := "application/vnd.openxmlformats-officedocument.spreadsheetml.sheet"
      payload := [.bytesPart (buildXlsxWorkbookArchive cells now)] }
  | .ods =>
    { fileName := baseName ++ ".ods"
      mimeType := "application/vnd.oasis.opendocument.spreadsheet"
      payload := [.bytesPart (buildOdsWorkbookArchive cells now)] }

/-- Written from the spec (§3 data model): a well-formed snapshot cell has a
formula that, when present, is non-empty and begins with `=` after trimming. -/
def wellFormedCell (cell : CellSnapshot) : Bool :=
  match cell.formula with
  | none => true
  | some f => !(jsTrim f).isEmpty && ((jsTrim f).data.head? == some '=')

/-- Written from the spec (§4.2 / claim C7): delimited export resolves to the
formula text when a formula is present, else the display value. -/
def specResolve (cell : CellSnapshot) : GridCellValue :=
  match cell.formula with
  | some f => .str f
  | none => cell.displayValue

/-- Written from the spec (§4.2 / claim C7): null becomes an empty field,
numbers and booleans unquoted literals, and a string is wrapped in double
quotes with internal quotes doubled exactly when it contains a double quote,
newline, carriage return or the delimiter, or differs from its own trim. -/
def specEncodeDelimitedCell (value : GridCellValue) (delimiter : String) : String :=
  match value with
  | .null => ""
  | .num n => jsNumberToString n
  | .boolean b => if b then "true" else "false"
  | .str s =>
    if strIncludes s "\"" || strIncludes s "\n" || strIncludes s "\r"
        || strIncludes s delimiter || (jsTrim s != s) then
      "\"" ++ ⟨(s.data.map (fun c => if c = '"' then ['"', '"'] else [c])).flatten⟩ ++ "\""
    else s

/-- Written from the spec (§4.2 / claim C7): fields joined by the delimiter,
rows joined by CRLF. -/
def specSerializeDelimited (cells : List (List CellSnapshot)) (delimiter : String) : String :=
  String.intercalate "\r\n" (cells.map (fun row =>
    String.intercalate delimiter (row.map (fun cell =>
      specEncodeDelimitedCell (specResolve cell) delimiter))))

/-- Written from the spec (§4.3 / claim C2): an OOXML cell is blank (emits no
`<c>` element) when its truthy formula strips to nothing, or — with no truthy
formula — its display value is null or a non-finite number. -/
def xlsxCellBlank (cell : CellSnapshot) : Bool :=
  if optStrTruthy cell.formula then
    (stripLeadingEq (jsTrim (cell.formula.getD ""))).isEmpty
  else
    match cell.displayValue with
    | .null => true
    | .num n => !isFiniteNum n
    | _ => false

/-- Written from the spec (claim C9): a row has content when some cell has a
non-null display value or carries a formula. -/
def specRowHasContent (row : List CellSnapshot) : Prop :=
  ∃ cell ∈ row, cell.displayValue ≠ .null ∨ cell.formula.isSome

/-- Proof infrastructure: length of the content prefix found by scanning
indices `i-1, i-2, ...` downward for the last row with content. -/
def contentLen (cells : List (List CellSnapshot)) : Nat → Nat
  | 0 => 0
  | i + 1 => if rowHasContent (cells.getD i []) then i + 1 else contentLen cells i


/-- Proof infrastructure: a 2 GiB entry body, used to exhibit 32-bit offset
field wrap-around. -/
def bigZipData : List Nat := List.replicate 2147483648 0


-- ===== Theorems =====

theorem string_length_pos_iff (s : String) : 0 < s.length ↔ s ≠ "" := by
  cases s with
  | mk data =>
    cases data <;> simp [String.length, String.ext_iff]

theorem replicate_set_zero {α : Type} (n : Nat) (a b : α) (h : 0 < n) :
    (List.replicate n a).set 0 b = b :: List.replicate (n - 1) a := by
  cases n with
  | zero => omega
  | succ m => simp [List.replicate_succ]

/-- C8: `buildAppendRows` returns, in order, exactly 4 fully blank gap rows,
then — exactly when the trimmed label is non-empty — one label row whose first
column carries `stringValue` of the trimmed label and whose other columns are
empty objects, then one row per input row; and `buildAppendRows '' [] 3` is
exactly 4 rows of 3 empty-object cells. -/
theorem buildAppendRows_structure (label : String) (cells : List (List CellSnapshot))
    (columnCount : Int) :
    buildAppendRows label cells columnCount =
      List.replicate 4 ⟨List.replicate (max 1 columnCount).toNat emptyCellData⟩
        ++ (if jsTrim label ≠ "" then
              [⟨{ userEnteredValue := some (.stringValue (jsTrim label)), note := none }
                  :: List.replicate ((max 1 columnCount).toNat - 1) emptyCellData⟩]
            else [])
        ++ cells.map (fun row => ⟨row.map toGoogleCellData⟩)
    ∧ buildAppendRows "" [] 3 = List.replicate 4 ⟨List.replicate 3 emptyCellData⟩ := by
  constructor
  · have hn : 0 < (max 1 columnCount).toNat := by
      have h1 := le_max_left (1 : Int) columnCount
      omega
    by_cases hl : jsTrim label = ""
    · simp [buildAppendRows, buildBlankRow, BLANK_GAP_ROWS, hl]
    · have hpos : 0 < (jsTrim label).length := (string_length_pos_iff _).mpr hl
      simp [buildAppendRows, buildBlankRow, BLANK_GAP_ROWS, hl, hpos,
        replicate_set_zero _ _ _ hn]
  · decide

/-- C10: the 4 gap rows are emitted unconditionally, so `buildAppendRows`
always returns at least 4 rows and `appendLedgerBlock` never takes its
`rows.length === 0` early-return branch: every invocation produces the
`batchUpdate` request carrying exactly the built rows. -/
theorem appendLedgerBlock_always_requests (label : Option String)
    (cells : List (List CellSnapshot)) (columnCount : Int) :
    4 ≤ (buildAppendRows (label.getD "") cells columnCount).length
    ∧ appendLedgerBlockRequest label cells columnCount
        = some (buildAppendRows (label.getD "") cells columnCount) := by
  have h4 : 4 ≤ (buildAppendRows (label.getD "") cells columnCount).length := by
    by_cases hl : (jsTrim (label.getD "")).length > 0 <;>
      simp [buildAppendRows, BLANK_GAP_ROWS, hl]
  refine ⟨h4, ?_⟩
  have hne : (buildAppendRows (label.getD "") cells columnCount).length ≠ 0 := by omega
  simp [appendLedgerBlockRequest, hne]

/-- C3 counterexample: `buildAppendRows '' [[]] 3` contains a data row with 0
per-column entries, not `max(1, 3) = 3` of them — data rows keep the width of
their input row. -/
theorem appendRows_width_claim_false :
    ¬ (∀ row ∈ buildAppendRows "" [[]] 3, row.values.length = (max 1 (3 : Int)).toNat) := by
  decide

/-- C3 amended: the gap rows and the label row have exactly `max(1, columnCount)`
per-column entries, while each data row has exactly one entry per cell of its
input row (its own width). -/
theorem appendRows_row_widths (label : String) (cells : List (List CellSnapshot))
    (columnCount : Int) :
    (buildAppendRows label cells columnCount).map (fun r => r.values.length) =
      List.replicate (4 + if jsTrim label ≠ "" then 1 else 0) (max 1 columnCount).toNat
        ++ cells.map List.length := by
  by_cases hl : jsTrim label = ""
  · simp [buildAppendRows, buildBlankRow, BLANK_GAP_ROWS, hl, List.map_map, Function.comp]
  · have hpos : 0 < (jsTrim label).length := (string_length_pos_iff _).mpr hl
    simp [buildAppendRows, buildBlankRow, BLANK_GAP_ROWS, hl, hpos, List.map_map,
      Function.comp, List.replicate_add]


theorem append_ne_empty_right (a b : String) (h : b ≠ "") : a ++ b ≠ "" := by
  have hb : 0 < b.length := (string_length_pos_iff b).mpr h
  have : 0 < (a ++ b).length := by rw [String.length_append]; omega
  exact (string_length_pos_iff _).mp this

/-- C6: `crc32` of the empty byte sequence is `0x00000000`, and the
table-driven register update (seeded `0xFFFFFFFF`, complemented once at the
end) is chunking-independent: running it over a concatenation equals running
it over the first part and continuing over the second. -/
theorem crc32_empty_and_chunking :
    crc32 [] = 0
    ∧ ∀ a b : List Nat, crc32 (a ++ b) =
        (List.foldl crc32Update (List.foldl crc32Update 0xffffffff a) b) ^^^ 0xffffffff := by
  refine ⟨by decide, ?_⟩
  intro a b
  simp [crc32, List.foldl_append]

/-- C1 counterexample: for the cell `{displayValue: 100, formula: '=A1*2'}`
the ODF builder emits the formula text as the cell's (string-typed) value:
the output is exactly a string cell holding `=A1*2`, it is not float-typed,
and the display value `100` appears nowhere in it. -/
theorem ods_formula_cell_not_value_typed :
    buildOdsCellXml ⟨.num (.finite 100), some "=A1*2"⟩ =
      "<table:table-cell office:value-type=\"string\"><text:p>=A1*2</text:p></table:table-cell>"
    ∧ strIncludes (buildOdsCellXml ⟨.num (.finite 100), some "=A1*2"⟩)
        "office:value-type=\"float\"" = false
    ∧ strIncludes (buildOdsCellXml ⟨.num (.finite 100), some "=A1*2"⟩) "100" = false := by
  refine ⟨by decide, by decide, by decide⟩

/-- C1 amended: ODF export resolves each cell through `resolveSnapshotValue`,
so whenever a cell carries a truthy (non-empty) formula the emitted cell is a
string-typed value holding the XML-escaped formula text — the display value is
not emitted and no annotation of any kind is attached. -/
theorem ods_formula_cell_emits_formula_string (cell : CellSnapshot)
    (h : optStrTruthy cell.formula = true) :
    buildOdsCellXml cell =
      "<table:table-cell office:value-type=\"string\"><text:p>"
        ++ escapeXml (cell.formula.getD "") ++ "</text:p></table:table-cell>" := by
  cases hf : cell.formula with
  | none => simp [optStrTruthy, hf] at h
  | some f =>
    have hne : f.isEmpty = false := by simpa [optStrTruthy, hf] using h
    simp [buildOdsCellXml, resolveSnapshotValue, hf, hne]

theorem ods_formula_cell_emits_formula_string_witness :
    buildOdsCellXml ⟨.num (.finite 100), some "=A1*2"⟩ =
      "<table:table-cell office:value-type=\"string\"><text:p>"
        ++ escapeXml ((some "=A1*2").getD "") ++ "</text:p></table:table-cell>" :=
  ods_formula_cell_emits_formula_string ⟨.num (.finite 100), some "=A1*2"⟩ (by decide)

/-- C2 counterexample: a grid whose only row is entirely blank still gets a
`<row r="1"/>` element inside `<sheetData>` — blank rows are not omitted. -/
theorem xlsx_blank_row_not_omitted :
    buildXlsxCellXml ⟨.null, none⟩ 0 0 = ""
    ∧ strIncludes (buildXlsxSheetXml [[⟨.null, none⟩]]) "<row r=\"1\"/>" = true := by
  refine ⟨by decide, by decide⟩

theorem isEmpty_iff_eq_empty (s : String) : s.isEmpty = true ↔ s = "" :=
  String.isEmpty_iff s

/-- C2 amended: a `<row>` element is emitted for every row index — the
worksheet's `sheetData` is the in-order concatenation of one never-empty row
string per grid row; a row all of whose cells are blank yields the self-closed
placeholder `<row r="n"/>` instead of being omitted; and a `<c>` element is
produced exactly for the non-blank cells of a row. -/
theorem xlsx_row_emission (cells : List (List CellSnapshot)) (row : List CellSnapshot)
    (i : Nat) (cell : CellSnapshot) (j : Nat) :
    buildXlsxSheetXml cells =
      "<?xml version=\"1.0\" encoding=\"UTF-8\" standalone=\"yes\"?>"
        ++ "<worksheet xmlns=\"http://schemas.openxmlformats.org/spreadsheetml/2006/main\">"
        ++ ("<sheetData>"
            ++ String.join (cells.mapIdx (fun rowIndex r => buildXlsxRowXml r rowIndex))
            ++ "</sheetData>")
        ++ "</worksheet>"
    ∧ buildXlsxRowXml row i ≠ ""
    ∧ ((∀ s ∈ row.mapIdx (fun columnIndex c => buildXlsxCellXml c i columnIndex), s = "") →
        buildXlsxRowXml row i = "<row r=\"" ++ toString (i + 1) ++ "\"/>")
    ∧ (buildXlsxCellXml cell i j = "" ↔ xlsxCellBlank cell = true) := by
  refine ⟨rfl, ?_, ?_, ?_⟩
  · simp only [buildXlsxRowXml]
    split
    · exact append_ne_empty_right _ _ (by decide)
    · exact append_ne_empty_right _ _ (by decide)
  · intro hall
    have hfilter : (row.mapIdx fun columnIndex c => buildXlsxCellXml c i columnIndex).filter
        (fun item => item.length > 0) = [] := by
      rw [List.filter_eq_nil_iff]
      intro a ha
      simp [hall a ha]
    simp [buildXlsxRowXml, hfilter, String.join]
  · by_cases hf : optStrTruthy cell.formula
    · by_cases hs : (stripLeadingEq (jsTrim (cell.formula.getD ""))).isEmpty
      · simp [buildXlsxCellXml, xlsxCellBlank, hf, hs]
      · simp only [buildXlsxCellXml, xlsxCellBlank, hf, hs, if_true, Bool.not_eq_true,
          if_false]
        constructor
        · intro hab
          exact absurd hab (append_ne_empty_right _ _ (by decide))
        · intro hb
          simp [hs] at hb
    · cases hd : cell.displayValue with
      | null => simp [buildXlsxCellXml, buildXlsxValueCellXml, xlsxCellBlank, hf, hd]
      | num n =>
        cases n with
        | finite v =>
          simp only [buildXlsxCellXml, buildXlsxValueCellXml, xlsxCellBlank, hf, hd,
            isFiniteNum, Bool.not_true, if_false]
          constructor
          · intro hab
            exact absurd hab (append_ne_empty_right _ _ (by decide))
          · intro hb
            simp at hb
        | nan => simp [buildXlsxCellXml, buildXlsxValueCellXml, xlsxCellBlank, hf, hd, isFiniteNum]
        | inf => simp [buildXlsxCellXml, buildXlsxValueCellXml, xlsxCellBlank, hf, hd, isFiniteNum]
        | negInf => simp [buildXlsxCellXml, buildXlsxValueCellXml, xlsxCellBlank, hf, hd,
            isFiniteNum]
      | boolean b =>
        simp only [buildXlsxCellXml, buildXlsxValueCellXml, xlsxCellBlank, hf, hd]
        constructor
        · intro hab
          exact absurd hab (append_ne_empty_right _ _ (by decide))
        · intro hb
          simp at hb
      | str s =>
        simp only [buildXlsxCellXml, buildXlsxValueCellXml, xlsxCellBlank, hf, hd]
        constructor
        · intro hab
          exact absurd hab (append_ne_empty_right _ _ (by decide))
        · intro hb
          simp at hb


theorem xlsx_row_emission_witness :
    buildXlsxRowXml [⟨.null, none⟩] 0 = "<row r=\"" ++ toString (0 + 1) ++ "\"/>" :=
  (xlsx_row_emission [] [⟨.null, none⟩] 0 ⟨.null, none⟩ 0).2.2.1 (by decide)

theorem jsTrim_empty : jsTrim "" = "" := by decide

theorem resolveSnapshotValue_eq_specResolve (cell : CellSnapshot)
    (h : wellFormedCell cell = true) : resolveSnapshotValue cell = specResolve cell := by
  cases hf : cell.formula with
  | none => simp [resolveSnapshotValue, specResolve, hf]
  | some f =>
    have h1 : (jsTrim f).isEmpty = false := by
      have := h
      simp [wellFormedCell, hf] at this
      simpa using this.1
    have h2 : f.isEmpty = false := by
      by_contra hc
      have : f = "" := (isEmpty_iff_eq_empty f).mp (by revert hc; cases f.isEmpty <;> simp)
      rw [this, jsTrim_empty] at h1
      exact absurd h1 (by decide)
    simp [resolveSnapshotValue, specResolve, hf, h2]

theorem encodeDelimitedCell_eq_spec (value : GridCellValue) (delimiter : String) :
    encodeDelimitedCell value delimiter = specEncodeDelimitedCell value delimiter := by
  cases value with
  | null => rfl
  | num n => rfl
  | boolean b => rfl
  | str s =>
    simp only [encodeDelimitedCell, specEncodeDelimitedCell, replaceAllChar]

theorem serializeDelimited_eq_spec (cells : List (List CellSnapshot)) (delimiter : String)
    (hwf : ∀ row ∈ cells, ∀ cell ∈ row, wellFormedCell cell = true) :
    serializeDelimited cells delimiter = specSerializeDelimited cells delimiter := by
  unfold serializeDelimited specSerializeDelimited
  congr 1
  apply List.map_congr_left
  intro row hrow
  congr 1
  apply List.map_congr_left
  intro cell hcell
  rw [resolveSnapshotValue_eq_specResolve cell (hwf row hrow cell hcell),
    encodeDelimitedCell_eq_spec]

/-- C7: for every well-formed grid (formulas, when present, are non-empty and
start with `=` — the §3 data-model invariant), the delimited exports resolve
each cell to its formula text when present else the display value, encode null
as an empty field, numbers/booleans as unquoted literals, and quote-with-
doubling a string exactly when it contains a quote, LF, CR or the delimiter or
differs from its own trim; fields are joined by the delimiter, rows by CRLF,
and a UTF-8 BOM is prepended to the whole payload string. -/
theorem delimited_export_matches_spec (cells : List (List CellSnapshot)) (label nowIso : String)
    (now : JSDate)
    (hwf : ∀ row ∈ cells, ∀ cell ∈ row, wellFormedCell cell = true) :
    (buildExportFile cells .csv label nowIso now).payload =
      [.strPart ("﻿" ++ specSerializeDelimited cells ",")]
    ∧ (buildExportFile cells .tsv label nowIso now).payload =
      [.strPart ("﻿" ++ specSerializeDelimited cells "\t")] := by
  refine ⟨?_, ?_⟩ <;>
    simp [buildExportFile, serializeDelimited_eq_spec _ _ hwf]

theorem delimited_export_matches_spec_witness :
    (buildExportFile [[⟨.str " Cash ", none⟩, ⟨.num (.finite 100), some "=A1*2"⟩]]
        .csv "x" "" ⟨1980, 0, 1, 0, 0, 0⟩).payload =
      [.strPart ("﻿" ++ specSerializeDelimited
        [[⟨.str " Cash ", none⟩, ⟨.num (.finite 100), some "=A1*2"⟩]] ",")] :=
  (delimited_export_matches_spec _ "x" "" ⟨1980, 0, 1, 0, 0, 0⟩ (by decide)).1

theorem trimFrom_eq_take (cells : List (List CellSnapshot)) (i : Nat) :
    trimFrom cells i = cells.take (contentLen cells i) := by
  induction i with
  | zero => rfl
  | succ k ih =>
    unfold trimFrom contentLen
    by_cases h : rowHasContent (cells.getD k []) = true
    · rw [if_pos h, if_pos h]
    · rw [if_neg h, if_neg h]
      exact ih

theorem contentLen_le (cells : List (List CellSnapshot)) (i : Nat) : contentLen cells i ≤ i := by
  induction i with
  | zero => simp [contentLen]
  | succ k ih =>
    unfold contentLen
    split <;> omega

theorem contentLen_no_content (cells : List (List CellSnapshot)) (i : Nat) :
    ∀ j, contentLen cells i ≤ j → j < i → rowHasContent (cells.getD j []) = false := by
  induction i with
  | zero => intro j h1 h2; omega
  | succ k ih =>
    intro j h1 h2
    unfold contentLen at h1
    by_cases h : rowHasContent (cells.getD k []) = true
    · rw [if_pos h] at h1; omega
    · rw [if_neg h] at h1
      rcases Nat.lt_succ_iff_lt_or_eq.mp h2 with hlt | heq
      · exact ih j h1 hlt
      · subst heq
        exact Bool.eq_false_iff.mpr h

theorem contentLen_last (cells : List (List CellSnapshot)) (i : Nat) :
    ∀ m, contentLen cells i = m + 1 → rowHasContent (cells.getD m []) = true := by
  induction i with
  | zero => intro m hm; simp [contentLen] at hm
  | succ k ih =>
    intro m hm
    unfold contentLen at hm
    by_cases h : rowHasContent (cells.getD k []) = true
    · rw [if_pos h] at hm
      have : m = k := by omega
      subst this
      exact h
    · rw [if_neg h] at hm
      exact ih m hm

theorem wf_truthy_eq_isSome (cell : CellSnapshot) (h : wellFormedCell cell = true) :
    optStrTruthy cell.formula = cell.formula.isSome := by
  cases hf : cell.formula with
  | none => rfl
  | some f =>
    simp only [optStrTruthy, Option.isSome_some]
    simp only [wellFormedCell, hf, Bool.and_eq_true] at h
    have h1 : (jsTrim f).isEmpty = false := by
      rcases h with ⟨h1, _⟩
      revert h1
      cases (jsTrim f).isEmpty <;> simp
    have h2 : f.isEmpty = false := by
      by_contra hc
      have hf0 : f = "" := (isEmpty_iff_eq_empty f).mp (by revert hc; cases f.isEmpty <;> simp)
      rw [hf0, jsTrim_empty] at h1
      exact absurd h1 (by decide)
    simp [h2]

theorem specRowHasContent_iff (row : List CellSnapshot)
    (hwf : ∀ cell ∈ row, wellFormedCell cell = true) :
    specRowHasContent row ↔ rowHasContent row = true := by
  unfold specRowHasContent rowHasContent
  rw [List.any_eq_true]
  constructor
  · rintro ⟨cell, hc, hor⟩
    refine ⟨cell, hc, ?_⟩
    rw [Bool.or_eq_true, bne_iff_ne]
    rcases hor with hd | hf
    · exact Or.inl hd
    · right
      rw [wf_truthy_eq_isSome cell (hwf cell hc)]
      exact hf
  · rintro ⟨cell, hc, hb⟩
    refine ⟨cell, hc, ?_⟩
    rw [Bool.or_eq_true, bne_iff_ne] at hb
    rcases hb with hd | ht
    · exact Or.inl hd
    · right
      cases hf : cell.formula with
      | none => rw [hf] at ht; exact absurd ht (by decide)
      | some f => simp

theorem blankRow_no_content (row : List CellSnapshot)
    (h : ∀ cell ∈ row, cell.displayValue = .null ∧ cell.formula = none) :
    rowHasContent row = false := by
  unfold rowHasContent
  rw [List.any_eq_false]
  intro cell hc
  obtain ⟨h1, h2⟩ := h cell hc
  simp [h1, h2, optStrTruthy]

theorem contentLen_append_blank (cells b : List (List CellSnapshot))
    (hb : ∀ j, cells.length ≤ j → rowHasContent ((cells ++ b).getD j []) = false) :
    ∀ m, contentLen (cells ++ b) (cells.length + m) = contentLen (cells ++ b) cells.length := by
  intro m
  induction m with
  | zero => rfl
  | succ k ih =>
    have hfalse := hb (cells.length + k) (by omega)
    have hstep : contentLen (cells ++ b) ((cells.length + k) + 1) =
        if rowHasContent ((cells ++ b).getD (cells.length + k) []) = true
        then (cells.length + k) + 1 else contentLen (cells ++ b) (cells.length + k) := rfl
    show contentLen (cells ++ b) ((cells.length + k) + 1) = _
    rw [hstep, if_neg (by rw [hfalse]; decide), ih]

theorem contentLen_append_left (cells b : List (List CellSnapshot)) :
    ∀ i, i ≤ cells.length → contentLen (cells ++ b) i = contentLen cells i := by
  intro i
  induction i with
  | zero => intro _; rfl
  | succ k ih =>
    intro hk
    have hgd : (cells ++ b).getD k [] = cells.getD k [] :=
      List.getD_append cells b [] k (by omega)
    have e1 : contentLen (cells ++ b) (k + 1) =
        if rowHasContent ((cells ++ b).getD k []) = true then k + 1
        else contentLen (cells ++ b) k := rfl
    have e2 : contentLen cells (k + 1) =
        if rowHasContent (cells.getD k []) = true then k + 1 else contentLen cells k := rfl
    rw [e1, e2, hgd, ih (by omega)]

/-- C9: `trimTrailingEmptyRows` returns the shortest prefix of its input
containing every row that has a cell with a non-null display value or a
formula (stated for well-formed grids, where a present formula is non-empty):
it is a prefix, every dropped row is contentless, no shorter prefix drops
only contentless rows, an all-blank grid trims to the empty list, and
appending fully blank rows never changes the result. -/
theorem trimTrailingEmptyRows_spec (cells : List (List CellSnapshot))
    (hwf : ∀ row ∈ cells, ∀ cell ∈ row, wellFormedCell cell = true) :
    trimTrailingEmptyRows cells = cells.take (trimTrailingEmptyRows cells).length
    ∧ (∀ row ∈ cells.drop (trimTrailingEmptyRows cells).length, ¬ specRowHasContent row)
    ∧ (∀ n, (∀ row ∈ cells.drop n, ¬ specRowHasContent row) →
        (trimTrailingEmptyRows cells).length ≤ n)
    ∧ ((∀ row ∈ cells, ¬ specRowHasContent row) → trimTrailingEmptyRows cells = [])
    ∧ (∀ b, (∀ row ∈ b, ∀ cell ∈ row, cell.displayValue = .null ∧ cell.formula = none) →
        trimTrailingEmptyRows (cells ++ b) = trimTrailingEmptyRows cells) := by
  have hk_le : contentLen cells cells.length ≤ cells.length := contentLen_le _ _
  have htake : trimTrailingEmptyRows cells = cells.take (contentLen cells cells.length) :=
    trimFrom_eq_take cells cells.length
  have hlen : (trimTrailingEmptyRows cells).length = contentLen cells cells.length := by
    rw [htake, List.length_take]
    omega
  have hcontent_at : ∀ m, m < cells.length → rowHasContent (cells.getD m []) = true →
      specRowHasContent (cells.getD m []) := by
    intro m hm hc
    have hmem : cells.getD m [] ∈ cells := by
      rw [List.getD_eq_getElem cells [] hm]
      exact List.getElem_mem hm
    exact (specRowHasContent_iff _ (hwf _ hmem)).mpr hc
  refine ⟨?_, ?_, ?_, ?_, ?_⟩
  · rw [hlen]
    exact htake
  · rw [hlen]
    intro row hrow hspec
    rw [List.mem_iff_getElem] at hrow
    obtain ⟨idx, hlt, heq⟩ := hrow
    have hlt2 : contentLen cells cells.length + idx < cells.length := by
      have := List.length_drop (contentLen cells cells.length) cells
      omega
    have hgd : cells.getD (contentLen cells cells.length + idx) [] = row := by
      rw [List.getD_eq_getElem cells [] hlt2, ← List.getElem_drop cells]
      exact heq
    have hnc := contentLen_no_content cells cells.length
      (contentLen cells cells.length + idx) (by omega) hlt2
    rw [hgd] at hnc
    have hwfrow : ∀ cell ∈ row, wellFormedCell cell = true := by
      apply hwf
      exact heq ▸ List.drop_subset _ _ (List.getElem_mem hlt)
    rw [specRowHasContent_iff row hwfrow] at hspec
    rw [hspec] at hnc
    exact absurd hnc (by decide)
  · intro n hn
    rw [hlen]
    by_contra hc
    push_neg at hc
    obtain ⟨m, hm⟩ : ∃ m, contentLen cells cells.length = m + 1 := ⟨_, (by omega :
      contentLen cells cells.length = (contentLen cells cells.length - 1) + 1)⟩
    have hcont := contentLen_last cells cells.length m hm
    have hm_lt : m < cells.length := by omega
    have hdropped : cells.getD m [] ∈ cells.drop n := by
      rw [List.getD_eq_getElem cells [] hm_lt]
      have hj : m - n < (cells.drop n).length := by
        rw [List.length_drop]
        omega
      refine List.mem_iff_getElem.mpr ⟨m - n, hj, ?_⟩
      rw [List.getElem_drop cells]
      congr 1
      omega
    exact hn _ hdropped (hcontent_at m hm_lt hcont)
  · intro hall
    have hzero : contentLen cells cells.length = 0 := by
      by_contra hc
      obtain ⟨m, hm⟩ : ∃ m, contentLen cells cells.length = m + 1 := ⟨_, (by omega :
        contentLen cells cells.length = (contentLen cells cells.length - 1) + 1)⟩
      have hcont := contentLen_last cells cells.length m hm
      have hm_lt : m < cells.length := by omega
      have hmem : cells.getD m [] ∈ cells := by
        rw [List.getD_eq_getElem cells [] hm_lt]
        exact List.getElem_mem hm_lt
      exact hall _ hmem (hcontent_at m hm_lt hcont)
    rw [htake, hzero]
    rfl
  · intro b hb
    have hbrows : ∀ j, cells.length ≤ j → rowHasContent ((cells ++ b).getD j []) = false := by
      intro j hj
      by_cases hjlt : j - cells.length < b.length
      · rw [List.getD_append_right cells b [] j hj]
        rw [List.getD_eq_getElem b [] hjlt]
        exact blankRow_no_content _ (hb _ (List.getElem_mem hjlt))
      · rw [List.getD_append_right cells b [] j hj,
          List.getD_eq_default b [] (by omega)]
        rfl
    have h2 : contentLen (cells ++ b) (cells.length + b.length) =
        contentLen cells cells.length := by
      rw [contentLen_append_blank cells b hbrows b.length,
        contentLen_append_left cells b cells.length le_rfl]
    show trimFrom (cells ++ b) (cells ++ b).length = trimTrailingEmptyRows cells
    rw [trimFrom_eq_take, List.length_append, h2, htake]
    exact List.take_append_of_le_length hk_le

theorem trimTrailingEmptyRows_spec_witness :
    trimTrailingEmptyRows ([[⟨.num (.finite 5), none⟩]] ++ [[⟨.null, none⟩]]) =
      trimTrailingEmptyRows [[⟨.num (.finite 5), none⟩]] :=
  ((trimTrailingEmptyRows_spec [[⟨.num (.finite 5), none⟩]] (by decide)).2.2.2.2)
    [[⟨.null, none⟩]] (by decide)

theorem localHeader_length (a b c t d : Nat) : (buildZipLocalFileHeader a b c t d).length = 30 := by
  simp [buildZipLocalFileHeader, u16le, u32le]

theorem centralHeader_length (a b c t d off : Nat) :
    (buildZipCentralDirectoryHeader a b c t d off).length = 46 := by
  simp [buildZipCentralDirectoryHeader, u16le, u32le]

theorem eocd_length (n cd off : Nat) :
    (buildZipEndOfCentralDirectoryRecord n cd off).length = 22 := by
  simp [buildZipEndOfCentralDirectoryRecord, u16le, u32le]

theorem zipFirstPass_eq (t d : Nat) (entries : List ZipEntry) :
    ∀ (L : List (List Nat)) (C : List CentralDirEntry) (off : Nat),
    entries.foldl (zipFirstStep t d) (L, C, off) =
      (L ++ (entries.map (fun e =>
          [buildZipLocalFileHeader (encodeUtf8 e.name).length (crc32 e.data) e.data.length t d,
            encodeUtf8 e.name, e.data])).flatten,
       C ++ zipCdEntriesFrom off entries,
       off + zipLocalLen entries) := by
  induction entries with
  | nil => intro L C off; simp [zipCdEntriesFrom, zipLocalLen]
  | cons e rest ih =>
    intro L C off
    simp only [List.foldl_cons, zipFirstStep]
    rw [ih]
    refine congrArg₂ Prod.mk ?_ (congrArg₂ Prod.mk ?_ ?_)
    · simp [List.append_assoc]
    · simp only [zipCdEntriesFrom, localHeader_length, List.append_assoc]
      rfl
    · simp [zipLocalLen, localHeader_length]
      omega

theorem zipSecondPass_eq (t d : Nat) (cdes : List CentralDirEntry) :
    ∀ (L : List (List Nat)) (s : Nat),
    cdes.foldl (zipSecondStep t d) (L, s) =
      (L ++ (cdes.map (fun c =>
          [buildZipCentralDirectoryHeader c.nameBytes.length c.crcValue c.size t d c.localOffset,
            c.nameBytes])).flatten,
       s + (cdes.map (fun c => 46 + c.nameBytes.length)).sum) := by
  induction cdes with
  | nil => intro L s; simp
  | cons c rest ih =>
    intro L s
    simp only [List.foldl_cons, zipSecondStep]
    rw [ih]
    refine congrArg₂ Prod.mk ?_ ?_
    · simp [List.append_assoc]
    · simp [centralHeader_length]
      omega

theorem zipCdEntriesFrom_sizes (entries : List ZipEntry) :
    ∀ off, ((zipCdEntriesFrom off entries).map (fun c => 46 + c.nameBytes.length)).sum =
      zipCentralLen entries := by
  induction entries with
  | nil => intro off; simp [zipCdEntriesFrom, zipCentralLen]
  | cons e rest ih =>
    intro off
    simp [zipCdEntriesFrom, zipCentralLen, ih]

theorem zipLocalChunks_flatten (t d : Nat) (entries : List ZipEntry) :
    ((entries.map (fun e =>
        [buildZipLocalFileHeader (encodeUtf8 e.name).length (crc32 e.data) e.data.length t d,
          encodeUtf8 e.name, e.data])).flatten).flatten = zipLocalSection entries t d := by
  induction entries with
  | nil => simp [zipLocalSection]
  | cons e rest ih => simp [zipLocalSection, zipLocalPart, ih, List.append_assoc]

theorem zipCentralChunks_flatten (t d : Nat) (cdes : List CentralDirEntry) :
    ((cdes.map (fun c =>
        [buildZipCentralDirectoryHeader c.nameBytes.length c.crcValue c.size t d c.localOffset,
          c.nameBytes])).flatten).flatten = (cdes.map (zipCentralPart t d)).flatten := by
  induction cdes with
  | nil => simp
  | cons c rest ih => simp [zipCentralPart, ih, List.append_assoc]

theorem createZipArchive_eq (entries : List ZipEntry) (now : JSDate) :
    createZipArchive entries now =
      zipLocalSection entries (toDosTime now) (toDosDate now)
        ++ zipCentralSection entries (toDosTime now) (toDosDate now)
        ++ buildZipEndOfCentralDirectoryRecord entries.length (zipCentralLen entries)
            (zipLocalLen entries) := by
  simp only [createZipArchive, zipFirstPass_eq, zipSecondPass_eq, List.nil_append,
    Nat.zero_add, List.flatten_append, List.flatten_cons, List.flatten_nil, List.append_nil]
  rw [zipLocalChunks_flatten, zipCentralChunks_flatten, zipCdEntriesFrom_sizes]
  rfl

theorem zipLocalSection_length (entries : List ZipEntry) (t d : Nat) :
    (zipLocalSection entries t d).length = zipLocalLen entries := by
  induction entries with
  | nil => simp [zipLocalSection, zipLocalLen]
  | cons e rest ih =>
    simp only [zipLocalSection, zipLocalLen, List.map_cons, List.flatten_cons,
      List.length_append, List.sum_cons] at *
    simp [zipLocalPart, localHeader_length, ih]
    omega

theorem zipCentralSection_length (entries : List ZipEntry) (t d : Nat) :
    (zipCentralSection entries t d).length = zipCentralLen entries := by
  have haux : ∀ (es : List ZipEntry) (off : Nat),
      (((zipCdEntriesFrom off es).map (zipCentralPart t d)).flatten).length =
        zipCentralLen es := by
    intro es
    induction es with
    | nil => intro off; simp [zipCdEntriesFrom, zipCentralLen]
    | cons e rest ih =>
      intro off
      simp only [zipCdEntriesFrom, zipCentralLen, List.map_cons, List.flatten_cons,
        List.length_append, List.sum_cons]
      rw [ih]
      simp [zipCentralPart, centralHeader_length, zipCentralLen]
  exact haux entries 0

theorem createZipArchive_length (entries : List ZipEntry) (now : JSDate) :
    (createZipArchive entries now).length =
      zipLocalLen entries + zipCentralLen entries + 22 := by
  rw [createZipArchive_eq]
  simp [zipLocalSection_length, zipCentralSection_length, eocd_length]
  omega

theorem readU16LE_u16le (v : Nat) (rest : List Nat) :
    readU16LE (u16le v ++ rest) = v % 65536 := by
  simp only [readU16LE, u16le, List.cons_append, List.nil_append, List.getD_cons_zero,
    List.getD_cons_succ]
  rw [show (65536 : Nat) = 256 * 256 by norm_num, Nat.mod_mul]

theorem readU32LE_u32le (v : Nat) (rest : List Nat) :
    readU32LE (u32le v ++ rest) = v % 4294967296 := by
  simp only [readU32LE, u32le, List.cons_append, List.nil_append, List.getD_cons_zero,
    List.getD_cons_succ]
  have e1 : v % 4294967296 = v % 65536 + 65536 * (v / 65536 % 65536) := by
    rw [show (4294967296 : Nat) = 65536 * 65536 by norm_num]
    exact Nat.mod_mul
  have e2 : v % 65536 = v % 256 + 256 * (v / 256 % 256) := by
    rw [show (65536 : Nat) = 256 * 256 by norm_num]
    exact Nat.mod_mul
  have e3 : v / 65536 % 65536 = v / 65536 % 256 + 256 * (v / 65536 / 256 % 256) := by
    rw [show (65536 : Nat) = 256 * 256 by norm_num]
    exact Nat.mod_mul
  have e4 : v / 65536 / 256 = v / 16777216 := by
    rw [Nat.div_div_eq_div_mul]
  rw [e1, e2, e3, e4]
  ring

theorem zip_eocd_tail (entries : List ZipEntry) (now : JSDate) :
    (createZipArchive entries now).drop (zipLocalLen entries + zipCentralLen entries) =
      buildZipEndOfCentralDirectoryRecord entries.length (zipCentralLen entries)
        (zipLocalLen entries) := by
  rw [createZipArchive_eq]
  have hlen : (zipLocalSection entries (toDosTime now) (toDosDate now)
      ++ zipCentralSection entries (toDosTime now) (toDosDate now)).length =
      zipLocalLen entries + zipCentralLen entries := by
    simp [zipLocalSection_length, zipCentralSection_length]
  rw [← hlen]
  have := @List.drop_append Nat
    (zipLocalSection entries (toDosTime now) (toDosDate now)
      ++ zipCentralSection entries (toDosTime now) (toDosDate now))
    (buildZipEndOfCentralDirectoryRecord entries.length (zipCentralLen entries)
      (zipLocalLen entries)) 0
  simp only [Nat.add_zero, List.drop_zero] at this
  exact this

theorem zip_eocd_fields (entries : List ZipEntry) (now : JSDate) :
    readU16LE ((createZipArchive entries now).drop
        ((createZipArchive entries now).length - 14)) = entries.length % 65536
    ∧ readU16LE ((createZipArchive entries now).drop
        ((createZipArchive entries now).length - 12)) = entries.length % 65536
    ∧ readU32LE ((createZipArchive entries now).drop
        ((createZipArchive entries now).length - 6)) = zipLocalLen entries % 4294967296 := by
  have htail := zip_eocd_tail entries now
  have hlen := createZipArchive_length entries now
  refine ⟨?_, ?_, ?_⟩
  · have h : (createZipArchive entries now).length - 14 =
        (zipLocalLen entries + zipCentralLen entries) + 8 := by omega
    have hdrop : (buildZipEndOfCentralDirectoryRecord entries.length (zipCentralLen entries)
        (zipLocalLen entries)).drop 8 =
        u16le entries.length ++ (u16le entries.length ++ u32le (zipCentralLen entries)
          ++ u32le (zipLocalLen entries) ++ u16le 0) := by
      simp [buildZipEndOfCentralDirectoryRecord, u16le, u32le]
    rw [h, ← List.drop_drop, htail, hdrop, readU16LE_u16le]
  · have h : (createZipArchive entries now).length - 12 =
        (zipLocalLen entries + zipCentralLen entries) + 10 := by omega
    have hdrop : (buildZipEndOfCentralDirectoryRecord entries.length (zipCentralLen entries)
        (zipLocalLen entries)).drop 10 =
        u16le entries.length ++ (u32le (zipCentralLen entries)
          ++ u32le (zipLocalLen entries) ++ u16le 0) := by
      simp [buildZipEndOfCentralDirectoryRecord, u16le, u32le]
    rw [h, ← List.drop_drop, htail, hdrop, readU16LE_u16le]
  · have h : (createZipArchive entries now).length - 6 =
        (zipLocalLen entries + zipCentralLen entries) + 16 := by omega
    have hdrop : (buildZipEndOfCentralDirectoryRecord entries.length (zipCentralLen entries)
        (zipLocalLen entries)).drop 16 =
        u32le (zipLocalLen entries) ++ u16le 0 := by
      simp [buildZipEndOfCentralDirectoryRecord, u16le, u32le]
    rw [h, ← List.drop_drop, htail, hdrop, readU32LE_u32le]

/-- C4 counterexample: the same entry list zipped at two different clock
readings yields different bytes — the header timestamp is `new Date()`, not a
fixed DOS-epoch value, so the output is not a function of the entry list
alone. -/
theorem zip_output_depends_on_clock :
    createZipArchive [⟨"a", []⟩] ⟨1980, 0, 1, 0, 0, 0⟩ ≠
      createZipArchive [⟨"a", []⟩] ⟨2026, 9, 11, 12, 30, 0⟩ := by decide

/-- C4 amended: every local and central-directory header of one archive is
stamped with the same DOS time/date pair, obtained by converting the single
wall-clock reading taken at the start of the call; given that timestamp the
output is a deterministic function of the entry list (equal DOS timestamps
give identical bytes). -/
theorem zip_shared_timestamp_structure (entries : List ZipEntry) (now now2 : JSDate) :
    createZipArchive entries now =
      zipLocalSection entries (toDosTime now) (toDosDate now)
        ++ zipCentralSection entries (toDosTime now) (toDosDate now)
        ++ buildZipEndOfCentralDirectoryRecord entries.length (zipCentralLen entries)
            (zipLocalLen entries)
    ∧ (∀ a b c t d, ((buildZipLocalFileHeader a b c t d).drop 10).take 4 = u16le t ++ u16le d)
    ∧ (∀ a b c t d off,
        ((buildZipCentralDirectoryHeader a b c t d off).drop 12).take 4 = u16le t ++ u16le d)
    ∧ (toDosTime now = toDosTime now2 → toDosDate now = toDosDate now2 →
        createZipArchive entries now = createZipArchive entries now2) := by
  refine ⟨createZipArchive_eq entries now, ?_, ?_, ?_⟩
  · intro a b c t d
    simp [buildZipLocalFileHeader, u16le, u32le]
  · intro a b c t d off
    simp [buildZipCentralDirectoryHeader, u16le, u32le]
  · intro ht hd
    rw [createZipArchive_eq, createZipArchive_eq, ht, hd]

theorem zip_shared_timestamp_structure_witness :
    createZipArchive [⟨"a", []⟩] ⟨2026, 9, 11, 12, 30, 0⟩ =
      createZipArchive [⟨"a", []⟩] ⟨2026, 9, 11, 12, 30, 1⟩ :=
  (zip_shared_timestamp_structure [⟨"a", []⟩] ⟨2026, 9, 11, 12, 30, 0⟩
    ⟨2026, 9, 11, 12, 30, 1⟩).2.2.2 (by decide) (by decide)

/-- C5 amended: for an entry list with fewer than 65536 entries, each entry
below 2^32 bytes, and — additionally — a local-file section shorter than 2^32
bytes, the end-of-central-directory record declares the entry count (both
16-bit fields) equal to the number of entries (= local file headers), its
32-bit central-directory-offset field equals the byte length of the
local-file section that precedes the central directory, and in every header
the compressed-size field equals the uncompressed-size field with compression
method 0 (store). -/
theorem zip_eocd_record_fields (entries : List ZipEntry) (now : JSDate)
    (h16 : entries.length < 65536) (_h32 : ∀ e ∈ entries, e.data.length < 4294967296)
    (hls : zipLocalLen entries < 4294967296) :
    readU16LE ((createZipArchive entries now).drop
        ((createZipArchive entries now).length - 14)) = entries.length
    ∧ readU16LE ((createZipArchive entries now).drop
        ((createZipArchive entries now).length - 12)) = entries.length
    ∧ readU32LE ((createZipArchive entries now).drop
        ((createZipArchive entries now).length - 6)) =
        (zipLocalSection entries (toDosTime now) (toDosDate now)).length
    ∧ (createZipArchive entries now).length =
        zipLocalLen entries + zipCentralLen entries + 22
    ∧ (∀ a b c t d, ((buildZipLocalFileHeader a b c t d).drop 8).take 2 = [0, 0]
        ∧ ((buildZipLocalFileHeader a b c t d).drop 18).take 4 =
          ((buildZipLocalFileHeader a b c t d).drop 22).take 4)
    ∧ (∀ a b c t d off,
        ((buildZipCentralDirectoryHeader a b c t d off).drop 10).take 2 = [0, 0]
        ∧ ((buildZipCentralDirectoryHeader a b c t d off).drop 20).take 4 =
          ((buildZipCentralDirectoryHeader a b c t d off).drop 24).take 4) := by
  obtain ⟨f1, f2, f3⟩ := zip_eocd_fields entries now
  refine ⟨?_, ?_, ?_, createZipArchive_length entries now, ?_, ?_⟩
  · rw [f1]
    exact Nat.mod_eq_of_lt h16
  · rw [f2]
    exact Nat.mod_eq_of_lt h16
  · rw [f3, zipLocalSection_length]
    exact Nat.mod_eq_of_lt hls
  · intro a b c t d
    constructor <;> simp [buildZipLocalFileHeader, u16le, u32le]
  · intro a b c t d off
    constructor <;> simp [buildZipCentralDirectoryHeader, u16le, u32le]

theorem zip_eocd_record_fields_witness :
    readU16LE ((createZipArchive [⟨"a", [104]⟩] ⟨1980, 0, 1, 0, 0, 0⟩).drop
        ((createZipArchive [⟨"a", [104]⟩] ⟨1980, 0, 1, 0, 0, 0⟩).length - 14)) =
      ([⟨"a", [104]⟩] : List ZipEntry).length :=
  (zip_eocd_record_fields [⟨"a", [104]⟩] ⟨1980, 0, 1, 0, 0, 0⟩ (by decide) (by decide)
    (by decide)).1


theorem bigZipData_length : bigZipData.length = 2147483648 := by
  unfold bigZipData
  exact List.length_replicate _ _

theorem zip_offset_wraps_general (blob : List Nat) (hlen : blob.length = 2147483648) :
    (([⟨"a", blob⟩, ⟨"a", blob⟩] : List ZipEntry).length < 65536
      ∧ ∀ e ∈ ([⟨"a", blob⟩, ⟨"a", blob⟩] : List ZipEntry), e.data.length < 4294967296)
    ∧ readU32LE ((createZipArchive [⟨"a", blob⟩, ⟨"a", blob⟩] ⟨1980, 0, 1, 0, 0, 0⟩).drop
        ((createZipArchive [⟨"a", blob⟩, ⟨"a", blob⟩] ⟨1980, 0, 1, 0, 0, 0⟩).length - 6)) ≠
      (zipLocalSection [⟨"a", blob⟩, ⟨"a", blob⟩]
        (toDosTime ⟨1980, 0, 1, 0, 0, 0⟩) (toDosDate ⟨1980, 0, 1, 0, 0, 0⟩)).length := by
  have hname : (encodeUtf8 "a").length = 1 := by decide
  have hll : zipLocalLen [⟨"a", blob⟩, ⟨"a", blob⟩] = 4294967358 := by
    unfold zipLocalLen
    simp only [List.map_cons, List.map_nil, List.sum_cons, List.sum_nil]
    rw [hname, hlen]
    norm_num
  refine ⟨⟨by simp, ?_⟩, ?_⟩
  · intro e he
    simp only [List.mem_cons, List.not_mem_nil, or_false] at he
    rcases he with rfl | rfl <;> simp [hlen]
  · obtain ⟨-, -, f3⟩ := zip_eocd_fields [⟨"a", blob⟩, ⟨"a", blob⟩] ⟨1980, 0, 1, 0, 0, 0⟩
    rw [f3, zipLocalSection_length, hll]
    norm_num

/-- C5 counterexample: two entries of 2^31 zero bytes each satisfy the
claim's stated hypotheses (fewer than 65536 entries, each entry shorter than
2^32 bytes), yet the 32-bit central-directory-offset field wraps modulo 2^32
and does not equal the byte length (4294967358) of the local-file section
that precedes the central directory. -/
theorem zip_eocd_offset_claim_false :
    (([⟨"a", bigZipData⟩, ⟨"a", bigZipData⟩] : List ZipEntry).length < 65536
      ∧ ∀ e ∈ ([⟨"a", bigZipData⟩, ⟨"a", bigZipData⟩] : List ZipEntry),
          e.data.length < 4294967296)
    ∧ readU32LE ((createZipArchive [⟨"a", bigZipData⟩, ⟨"a", bigZipData⟩]
          ⟨1980, 0, 1, 0, 0, 0⟩).drop
        ((createZipArchive [⟨"a", bigZipData⟩, ⟨"a", bigZipData⟩]
          ⟨1980, 0, 1, 0, 0, 0⟩).length - 6)) ≠
      (zipLocalSection [⟨"a", bigZipData⟩, ⟨"a", bigZipData⟩]
        (toDosTime ⟨1980, 0, 1, 0, 0, 0⟩) (toDosDate ⟨1980, 0, 1, 0, 0, 0⟩)).length :=
  zip_offset_wraps_general bigZipData bigZipData_length

end BeanGrid
